import Mathlib

/-!
Verification development for the BSE announcement notifier (`notify.py`).

The script polls a paginated announcement feed, normalizes record
identifiers, filters out already-seen records using a persisted watermark
(`last_announcement.json`), applies a watchlist filter and a topic
(financial-results) filter, sends one Telegram message per selected record,
and persists the highest identifier seen in the run.

This file shallowly embeds the pure logic of the script: Python values that
feed `int(...)` and truthiness tests become `FieldVal`; the JSON state file
becomes `StateFile`; the upstream pager becomes a function `Nat → PageResult`;
the run orchestrator `main` becomes `mainRun`, returning the list of records
passed to the notifier together with the value written to the state file
(if any).
-/

namespace Notify

/-- Python whitespace class (`\s` of the `re` module, and `str.strip`):
space, tab, newline, carriage return, vertical tab, form feed. -/
def isPySpace (c : Char) : Bool :=
  c = ' ' || c = '\t' || c = '\n' || c = '\r' || c = Char.ofNat 11 || c = Char.ofNat 12

/-- Python `str.strip()`: remove leading and trailing whitespace. -/
def pyStrip (s : String) : String :=
  String.mk (((s.data.dropWhile isPySpace).reverse.dropWhile isPySpace).reverse)

/-- Accumulate decimal digits; fails on any non-digit character. -/
def parseDigitsAux : List Char → Nat → Option Nat
  | [], acc => some acc
  | c :: cs, acc =>
    if c.isDigit then parseDigitsAux cs (acc * 10 + (c.toNat - 48)) else none

/-- Python `int(s)` on a string: strip whitespace, optional sign, then a
nonempty run of decimal digits; anything else raises (modelled as `none`). -/
def pyIntOfString (s : String) : Option Int :=
  let t := (((s.data.dropWhile isPySpace).reverse.dropWhile isPySpace).reverse)
  match t with
  | [] => none
  | '-' :: rest =>
    match rest with
    | [] => none
    | _ => (parseDigitsAux rest 0).map (fun n => -(n : Int))
  | '+' :: rest =>
    match rest with
    | [] => none
    | _ => (parseDigitsAux rest 0).map (fun n => (n : Int))
  | _ => (parseDigitsAux t 0).map (fun n => (n : Int))

/-- A Python value sitting in one of the identifier fields of a raw
announcement dict (`S_NO`, `SEQ_NO`, `id`): absent/None, an int, or a str. -/
inductive FieldVal where
  | vNone
  | vInt (n : Int)
  | vStr (s : String)
deriving DecidableEq, Repr

/-- Python truthiness of a field value: `None` is falsy, `0` is falsy,
`""` is falsy. -/
def fieldTruthy : FieldVal → Bool
  | .vNone => false
  | .vInt n => n ≠ 0
  | .vStr s => s ≠ ""

/-- The Python `or` chain `x1 or x2 or ... or 0`: the first truthy value,
defaulting to the integer `0`. -/
def firstTruthy : List FieldVal → FieldVal
  | [] => .vInt 0
  | v :: vs => if fieldTruthy v then v else firstTruthy vs

/-- Python `int(...)` applied to a field value: ints pass through, strings
are parsed, `None` raises `TypeError` (modelled as `none`). -/
def pyIntFV : FieldVal → Option Int
  | .vNone => none
  | .vInt n => some n
  | .vStr s => pyIntOfString s

/-- A JSON value as loaded by `json.load`; numeric values are modelled as
integers (the state file is only ever written with an integer `last_id`). -/
inductive JVal where
  | jnull
  | jbool (b : Bool)
  | jnum (n : Int)
  | jstr (s : String)
  | jarr (xs : List JVal)
  | jobj (kvs : List (String × JVal))

/-- Dict lookup (`data["last_id"]` after `"last_id" in data`). -/
def lookupKey : List (String × JVal) → String → Option JVal
  | [], _ => none
  | (k, v) :: kvs, key => if k = key then some v else lookupKey kvs key

/-- Python `int(...)` applied to a JSON value: ints pass, strings are parsed,
booleans coerce to 0/1, everything else raises `TypeError`/`ValueError`
(modelled as `none`). -/
def pyIntOfJ : JVal → Option Int
  | .jnum n => some n
  | .jstr s => pyIntOfString s
  | .jbool b => some (if b then 1 else 0)
  | .jnull => none
  | .jarr _ => none
  | .jobj _ => none

/-- The observable condition of the persisted state file
`last_announcement.json` at the start of a run: absent on disk, present but
unreadable/unparseable (`open`/`json.load` raises), or parsed to a JSON
value. -/
inductive StateFile where
  | missing
  | unreadable
  | parsed (data : JVal)

/-- `load_state` of `notify.py`: returns −1 when the file is missing, when
reading/parsing raises, when the parsed value is not a dict containing
`"last_id"`, or when `int(data["last_id"])` raises; otherwise the parsed
integer. Total by construction, matching the code's catch-all handling
("does not throw"). -/
def load_state : StateFile → Int
  | .missing => -1
  | .unreadable => -1
  | .parsed d =>
    match d with
    | .jobj kvs =>
      match lookupKey kvs "last_id" with
      | some v => (pyIntOfJ v).getD (-1)
      | none => -1
    | _ => -1

/-- `save_state` of `notify.py`: writes `{"last_id": int(last_id)}` via a
temp file and atomic replace. Modelled as the resulting state-file content
(the failure branch leaves the previous file untouched and is represented
in `mainRun` by `savedId = none` when no save is attempted). -/
def save_state (last_id : Int) : StateFile :=
  .parsed (.jobj [("last_id", .jnum last_id)])

/-- A raw announcement record, with the fields `notify.py` reads:
identifier candidates `S_NO` / `SEQ_NO` / `id` (tried in that order by the
normalizer), the text fields joined for topic matching, and the scrip code
used by the watchlist filter. -/
structure Ann where
  s_no : FieldVal
  seq_no : FieldVal
  idField : FieldVal
  ann_title : Option String
  ann_type : Option String
  descr : Option String
  title : Option String
  scrip_cd : Option String
deriving DecidableEq, Repr

/-- Outcome of one `bse.announcements(page_no=...)` call: the call raised
(`fail`), or returned a payload whose `Table` is the given list (`page []`
covers a falsy payload or a missing/empty/None `Table`, which the code
treats identically). -/
inductive PageResult where
  | fail
  | page (table : List Ann)

/-- The pagination loop of `fetch_announcements`, starting at page `pageNo`
with `n` pages left: stop (keeping prior pages) on a raised call or an
empty table, extend with the page's rows, and stop after a page of fewer
than 10 rows. -/
def fetchFrom (src : Nat → PageResult) : Nat → Nat → List Ann
  | _, 0 => []
  | pageNo, Nat.succ n =>
    match src pageNo with
    | .fail => []
    | .page t =>
      if t = [] then []
      else if t.length < 10 then t
      else t ++ fetchFrom src (pageNo + 1) n

/-- `fetch_announcements` of `notify.py`: scan pages 1 .. max_pages. -/
def fetch_announcements (src : Nat → PageResult) (max_pages : Nat) : List Ann :=
  fetchFrom src 1 max_pages

/-- Concatenation of the tables of pages `start, start+1, ..., start+n-1`
(a failed page contributing nothing); used to state what pagination
retains. -/
def tablesConcat (src : Nat → PageResult) (start : Nat) : Nat → List Ann
  | 0 => []
  | Nat.succ n =>
    (match src start with | .page t => t | .fail => []) ++ tablesConcat src (start + 1) n

/-- Match the literal characters `p` (given uppercased) case-insensitively
at the head of `s`; return the rest of `s` on success. -/
def litAt : List Char → List Char → Option (List Char)
  | [], s => some s
  | _ :: _, [] => none
  | p :: ps, c :: cs => if c.toUpper = p then litAt ps cs else none

/-- The `REG[\s.]*33` alternative of `RESULTS_RE` at the current position.
The class `[\s.]` cannot produce the digit 3, so greedy consumption of the
class is equivalent to the regex's backtracking search. -/
def matchReg33 (s : List Char) : Bool :=
  match litAt "REG".data s with
  | some r => (litAt "33".data (r.dropWhile (fun c => isPySpace c || c = '.'))).isSome
  | none => false

/-- The `Q[1-4]\s*FY` alternative of `RESULTS_RE` at the current position. -/
def matchQFY (s : List Char) : Bool :=
  match s with
  | c :: d :: rest =>
    c.toUpper = 'Q' && (d = '1' || d = '2' || d = '3' || d = '4') &&
      (litAt "FY".data (rest.dropWhile isPySpace)).isSome
  | _ => false

/-- The `YEAR\s*ENDED` alternative of `RESULTS_RE` at the current position. -/
def matchYearEnded (s : List Char) : Bool :=
  match litAt "YEAR".data s with
  | some r => (litAt "ENDED".data (r.dropWhile isPySpace)).isSome
  | none => false

/-- Consume one or more whitespace characters (`\s+`). -/
def spacePlus : List Char → Option (List Char)
  | [] => none
  | c :: cs => if isPySpace c then some (cs.dropWhile isPySpace) else none

/-- The `STATEMENT\s+OF\s+STANDALONE` alternative of `RESULTS_RE` at the
current position. -/
def matchStmtStandalone (s : List Char) : Bool :=
  match litAt "STATEMENT".data s with
  | some r1 =>
    match spacePlus r1 with
    | some r2 =>
      match litAt "OF".data r2 with
      | some r3 =>
        match spacePlus r3 with
        | some r4 => (litAt "STANDALONE".data r4).isSome
        | none => false
      | none => false
    | none => false
  | none => false

/-- One position of the case-insensitive alternation of `RESULTS_RE`:
`RESULT | FINANCIAL | REG[\s.]*33 | Q[1-4]\s*FY | QUARTER | UNAUDITED |
AUDITED | YEAR\s*ENDED | STATEMENT\s+OF\s+STANDALONE | CONSOLIDATED`. -/
def matchAlt (s : List Char) : Bool :=
  (litAt "RESULT".data s).isSome ||
  (litAt "FINANCIAL".data s).isSome ||
  matchReg33 s ||
  matchQFY s ||
  (litAt "QUARTER".data s).isSome ||
  (litAt "UNAUDITED".data s).isSome ||
  (litAt "AUDITED".data s).isSome ||
  matchYearEnded s ||
  matchStmtStandalone s ||
  (litAt "CONSOLIDATED".data s).isSome

/-- Unanchored search: try the alternation at every position. -/
def searchAny : List Char → Bool
  | [] => matchAlt []
  | c :: cs => matchAlt (c :: cs) || searchAny cs

/-- `RESULTS_RE.search(text)` of `notify.py` as a Boolean. -/
def resultsReSearch (s : String) : Bool :=
  searchAny s.data

/-- `is_results_announcement` of `notify.py`: strip each of `ANN_TITLE`,
`ANN_TYPE`, `description`, `title`; join the nonempty ones with `" | "`;
search with `RESULTS_RE`. -/
def is_results_announcement (a : Ann) : Bool :=
  let fields :=
    [a.ann_title, a.ann_type, a.descr, a.title].filterMap (fun o =>
      match o with
      | some v => let t := pyStrip v; if t = "" then none else some t
      | none => none)
  resultsReSearch (String.intercalate " | " fields)

/-- `in_watchlist` of `notify.py`: an empty watchlist admits everything,
otherwise the record's stripped `SCRIP_CD` must be listed. -/
def in_watchlist (codes : List String) (a : Ann) : Bool :=
  if codes = [] then true
  else codes.contains (pyStrip ((a.scrip_cd).getD ""))

/-- The ID normalization step of `main`: `int(S_NO or SEQ_NO or id or 0)`,
dropping the record (via `continue`) when the conversion raises or yields 0. -/
def normId (a : Ann) : Option Int :=
  match pyIntFV (firstTruthy [a.s_no, a.seq_no, a.idField]) with
  | none => none
  | some n => if n = 0 then none else some n

/-- The normalized list `norm` of `main`, before sorting: each surviving
record paired with its assigned `_id`. -/
def normPairs (anns : List Ann) : List (Int × Ann) :=
  anns.filterMap (fun a => (normId a).map (fun n => (n, a)))

/-- `max(x["_id"] for x in norm)` over a nonempty list. -/
def maxFst : List (Int × Ann) → Option Int
  | [] => none
  | p :: ps => some (ps.foldl (fun m q => max m q.1) p.1)

/-- Observable outcome of one run of `main`: the records passed (in order,
with their `_id`) to `tg_send`/`build_message`, and the argument of the
`save_state` call if one was made. -/
structure RunResult where
  sent : List (Int × Ann)
  savedId : Option Int
deriving DecidableEq, Repr

/-- `main` of `notify.py`: load the watermark, fetch, return early on an
empty fetch or an empty normalized list (no send, no save); otherwise sort
by `_id`, keep records above the loaded watermark, filter by watchlist and
topic, send those, and save the maximum `_id` seen this run. -/
def mainRun (st : StateFile) (src : Nat → PageResult) (max_pages : Nat)
    (watchlist : List String) : RunResult :=
  let last_id := load_state st
  let anns := fetch_announcements src max_pages
  if anns = [] then ⟨[], none⟩
  else
    let norm := normPairs anns
    if norm = [] then ⟨[], none⟩
    else
      let sorted := norm.insertionSort (fun p q => p.1 ≤ q.1)
      let newest := (maxFst sorted).getD (-1)
      let unseen := sorted.filter (fun p => decide (last_id < p.1))
      let to_alert :=
        unseen.filter (fun p => in_watchlist watchlist p.2 && is_results_announcement p.2)
      ⟨to_alert, some newest⟩

/-- The number of fetched records that pass normalization, the unseen test
against `last_id`, the watchlist and the topic filter — stated directly on
the unsorted fetched list. -/
def matchCount (watchlist : List String) (last_id : Int) (anns : List Ann) : Nat :=
  (anns.filter (fun a =>
    match normId a with
    | some n => decide (last_id < n) && (in_watchlist watchlist a && is_results_announcement a)
    | none => false)).length

/-- All identifier candidates of a record are missing, unparseable, or parse
to the integer 0 (the cases `main` refuses to assign an `_id` for). -/
def noValidId (a : Ann) : Prop :=
  (pyIntFV a.s_no = none ∨ pyIntFV a.s_no = some 0) ∧
  (pyIntFV a.seq_no = none ∨ pyIntFV a.seq_no = some 0) ∧
  (pyIntFV a.idField = none ∨ pyIntFV a.idField = some 0)

instance (a : Ann) : Decidable (noValidId a) := by
  unfold noValidId
  infer_instance

/-- A record with an integer `S_NO` and a subject line, as the BSE feed
typically supplies. -/
def mkAnn (n : Int) (subj : String) : Ann :=
  ⟨.vInt n, .vNone, .vNone, some subj, none, none, none, none⟩

/-- Record whose subject is a board-meeting outcome (no results keyword). -/
def annBoard : Ann := mkAnn 1 "XYZ Ltd - Outcome of Board Meeting"

/-- Record whose subject is an unaudited-results filing. -/
def annResults : Ann :=
  mkAnn 2 "XYZ Ltd - Unaudited Financial Results for Quarter Ended Sept 2025"

/-- The same results subject, all lowercase. -/
def annResultsLower : Ann :=
  mkAnn 3 "xyz ltd - unaudited financial results for quarter ended sept 2025"

/-- The same results subject, all uppercase. -/
def annResultsUpper : Ann :=
  mkAnn 4 "XYZ LTD - UNAUDITED FINANCIAL RESULTS FOR QUARTER ENDED SEPT 2025"

/-- A matching record with `_id` 5. -/
def annFin5 : Ann := mkAnn 5 "Unaudited Financial Results"

/-- A topic-matching record none of whose identifier fields parses: `S_NO`
and `SEQ_NO` absent, `id` a non-numeric string. -/
def annNoId : Ann :=
  ⟨.vNone, .vNone, .vStr "abc", some "Unaudited Financial Results", none, none, none, none⟩

/-- A filler row for building full (10-row) pages. -/
def annRow : Ann := mkAnn 1 "Intimation of record date"

/-- Source with a single one-record page. -/
def srcOne : Nat → PageResult :=
  fun i => if i = 1 then .page [annFin5] else .page []

/-- Source with one page of three records, two of which match the topic. -/
def srcTwo : Nat → PageResult :=
  fun i =>
    if i = 1 then
      .page [mkAnn 3 "Unaudited Financial Results", mkAnn 1 "Board Meeting",
             mkAnn 2 "Q2 FY Results"]
    else .page []

/-- Source whose records carry low ids 1..3 (all below an old watermark). -/
def srcLow : Nat → PageResult :=
  fun i =>
    if i = 1 then
      .page [mkAnn 1 "Outcome of Board Meeting", mkAnn 2 "Allotment of shares",
             mkAnn 3 "Investor presentation"]
    else .page []

/-- Source mixing a record without a parseable id and one with id 5. -/
def srcMixed : Nat → PageResult :=
  fun i => if i = 1 then .page [annNoId, annFin5] else .page []

/-- Source whose only record has no parseable id. -/
def srcAllBad : Nat → PageResult :=
  fun i => if i = 1 then .page [annNoId] else .page []

/-- Source all of whose pages are empty. -/
def srcEmptyPages : Nat → PageResult :=
  fun _ => .page []

/-- Source with a full first page and a failing second page. -/
def srcErrPage2 : Nat → PageResult :=
  fun i => if i = 1 then .page (List.replicate 10 annRow) else .fail

/-- Source with a full first page and a short (one-row) second page. -/
def srcShortPage2 : Nat → PageResult :=
  fun i =>
    if i = 1 then .page (List.replicate 10 annRow)
    else if i = 2 then .page [annFin5]
    else .page []

/-- Source all of whose pages are full. -/
def srcAllFull : Nat → PageResult :=
  fun _ => .page (List.replicate 10 annRow)

/- ### Helper lemmas -/

theorem normPairs_mem {anns : List Ann} {p : Int × Ann} (hp : p ∈ normPairs anns) :
    p.2 ∈ anns ∧ normId p.2 = some p.1 := by
  rcases List.mem_filterMap.1 hp with ⟨a, ha, hfa⟩
  rcases Option.map_eq_some'.1 hfa with ⟨n, hn, hpa⟩
  cases hpa
  exact ⟨ha, hn⟩

theorem normPairs_mem_of {anns : List Ann} {a : Ann} {n : Int}
    (ha : a ∈ anns) (hn : normId a = some n) : (n, a) ∈ normPairs anns :=
  List.mem_filterMap.2 ⟨a, ha, by rw [hn]; rfl⟩

theorem le_foldl_maxFst (l : List (Int × Ann)) :
    ∀ m : Int, m ≤ l.foldl (fun m q => max m q.1) m := by
  induction l with
  | nil => intro m; exact le_refl m
  | cons q t ih => intro m; exact le_trans (le_max_left m q.1) (ih (max m q.1))

theorem mem_le_foldl_maxFst (l : List (Int × Ann)) :
    ∀ (m : Int) (p : Int × Ann), p ∈ l → p.1 ≤ l.foldl (fun m q => max m q.1) m := by
  induction l with
  | nil => intro m p hp; cases hp
  | cons q t ih =>
    intro m p hp
    rcases List.mem_cons.1 hp with h | h
    · subst h; exact le_trans (le_max_right m p.1) (le_foldl_maxFst t (max m p.1))
    · exact ih (max m q.1) p h

theorem foldl_maxFst_mem (l : List (Int × Ann)) :
    ∀ m : Int,
      l.foldl (fun m q => max m q.1) m = m ∨
      ∃ p ∈ l, l.foldl (fun m q => max m q.1) m = p.1 := by
  induction l with
  | nil => intro m; exact Or.inl rfl
  | cons q t ih =>
    intro m
    rcases ih (max m q.1) with h | ⟨p, hp, he⟩
    · rcases max_choice m q.1 with hm | hm
      · left; rw [List.foldl_cons, h, hm]
      · right; exact ⟨q, List.mem_cons_self q t, by rw [List.foldl_cons, h, hm]⟩
    · right; exact ⟨p, List.mem_cons_of_mem q hp, by rw [List.foldl_cons]; exact he⟩

theorem maxFst_spec (l : List (Int × Ann)) (h : l ≠ []) :
    ∃ m, maxFst l = some m ∧ (∃ p ∈ l, p.1 = m) ∧ ∀ p ∈ l, p.1 ≤ m := by
  cases l with
  | nil => exact absurd rfl h
  | cons q t =>
    refine ⟨t.foldl (fun acc (r : Int × Ann) => max acc r.1) q.1, rfl, ?_, ?_⟩
    · rcases foldl_maxFst_mem t q.1 with h1 | ⟨p, hp, he⟩
      · exact ⟨q, List.mem_cons_self q t, h1.symm⟩
      · exact ⟨p, List.mem_cons_of_mem q hp, he.symm⟩
    · intro p hp
      rcases List.mem_cons.1 hp with h1 | h1
      · subst h1; exact le_foldl_maxFst t p.1
      · exact mem_le_foldl_maxFst t q.1 p h1

theorem mainRun_empty_fetch (st : StateFile) (src : Nat → PageResult) (mp : Nat)
    (wl : List String) (h : fetch_announcements src mp = []) :
    mainRun st src mp wl = ⟨[], none⟩ := by
  unfold mainRun
  rw [if_pos h]

theorem mainRun_empty_norm (st : StateFile) (src : Nat → PageResult) (mp : Nat)
    (wl : List String) (h : normPairs (fetch_announcements src mp) = []) :
    mainRun st src mp wl = ⟨[], none⟩ := by
  by_cases h1 : fetch_announcements src mp = []
  · exact mainRun_empty_fetch st src mp wl h1
  · unfold mainRun
    rw [if_neg h1, if_pos h]

theorem mainRun_eq_of_ne (st : StateFile) (src : Nat → PageResult) (mp : Nat)
    (wl : List String) (h2 : normPairs (fetch_announcements src mp) ≠ []) :
    mainRun st src mp wl =
      ⟨(((normPairs (fetch_announcements src mp)).insertionSort
            (fun p q => p.1 ≤ q.1)).filter
              (fun p => decide (load_state st < p.1))).filter
            (fun p => in_watchlist wl p.2 && is_results_announcement p.2),
        some ((maxFst ((normPairs (fetch_announcements src mp)).insertionSort
            (fun p q => p.1 ≤ q.1))).getD (-1))⟩ := by
  have h1 : fetch_announcements src mp ≠ [] := by
    intro h
    apply h2
    rw [h]
    rfl
  unfold mainRun
  rw [if_neg h1, if_neg h2]

theorem length_filter_normPairs (f : Int × Ann → Bool) (anns : List Ann) :
    ((normPairs anns).filter f).length =
      (anns.filter (fun a =>
        match normId a with
        | some n => f (n, a)
        | none => false)).length := by
  induction anns with
  | nil => rfl
  | cons a t ih =>
    cases h : normId a with
    | none =>
      simp only [normPairs, List.filterMap_cons, h, Option.map_none', List.filter_cons]
      simpa [normPairs] using ih
    | some n =>
      simp only [normPairs, List.filterMap_cons, h, Option.map_some', List.filter_cons]
      by_cases hf : f (n, a)
      · simpa [normPairs, hf] using ih
      · simpa [normPairs, hf] using ih

theorem matchCount_eq_zero (wl : List String) (l : Int) (anns : List Ann)
    (h : ∀ a ∈ anns, normId a = none) : matchCount wl l anns = 0 := by
  unfold matchCount
  rw [List.filter_eq_nil_iff.2]
  · rfl
  · intro a ha
    rw [h a ha]
    exact Bool.false_ne_true

theorem sent_length_eq (st : StateFile) (src : Nat → PageResult) (mp : Nat)
    (wl : List String) :
    (mainRun st src mp wl).sent.length =
      matchCount wl (load_state st) (fetch_announcements src mp) := by
  by_cases h1 : fetch_announcements src mp = []
  · rw [mainRun_empty_fetch st src mp wl h1, h1]
    rfl
  · by_cases h2 : normPairs (fetch_announcements src mp) = []
    · have hz : matchCount wl (load_state st) (fetch_announcements src mp) = 0 := by
        apply matchCount_eq_zero
        intro a ha
        cases hn : normId a with
        | none => rfl
        | some n =>
          have hmem : (n, a) ∈ normPairs (fetch_announcements src mp) :=
            normPairs_mem_of ha hn
          rw [h2] at hmem
          cases hmem
      rw [mainRun_empty_norm st src mp wl h2, hz]
      rfl
    · rw [mainRun_eq_of_ne st src mp wl h2]
      rw [List.filter_filter]
      have hcong :
          (((normPairs (fetch_announcements src mp)).insertionSort
              (fun p q => p.1 ≤ q.1)).filter
            (fun p => (in_watchlist wl p.2 && is_results_announcement p.2) &&
              decide (load_state st < p.1))) =
          (((normPairs (fetch_announcements src mp)).insertionSort
              (fun p q => p.1 ≤ q.1)).filter
            (fun p => decide (load_state st < p.1) &&
              (in_watchlist wl p.2 && is_results_announcement p.2))) := by
        apply List.filter_congr
        intro p _
        rw [Bool.and_comm]
      rw [hcong]
      have hperm :
          ((((normPairs (fetch_announcements src mp)).insertionSort
              (fun p q => p.1 ≤ q.1)).filter
            (fun p => decide (load_state st < p.1) &&
              (in_watchlist wl p.2 && is_results_announcement p.2))).length) =
          ((normPairs (fetch_announcements src mp)).filter
            (fun p => decide (load_state st < p.1) &&
              (in_watchlist wl p.2 && is_results_announcement p.2))).length :=
        ((List.perm_insertionSort (fun p q : Int × Ann => p.1 ≤ q.1)
            (normPairs (fetch_announcements src mp))).filter _).length_eq
      rw [hperm]
      exact length_filter_normPairs _ _

theorem savedId_spec (st : StateFile) (src : Nat → PageResult) (mp : Nat)
    (wl : List String) (m : Int) (h : (mainRun st src mp wl).savedId = some m) :
    (∃ p ∈ normPairs (fetch_announcements src mp), p.1 = m) ∧
      ∀ p ∈ normPairs (fetch_announcements src mp), p.1 ≤ m := by
  by_cases h1 : fetch_announcements src mp = []
  · rw [mainRun_empty_fetch st src mp wl h1] at h
    cases h
  · by_cases h2 : normPairs (fetch_announcements src mp) = []
    · rw [mainRun_empty_norm st src mp wl h2] at h
      cases h
    · rw [mainRun_eq_of_ne st src mp wl h2] at h
      have hs : ((normPairs (fetch_announcements src mp)).insertionSort
          (fun p q => p.1 ≤ q.1)) ≠ [] := by
        intro he
        apply h2
        have := (List.perm_insertionSort (fun p q : Int × Ann => p.1 ≤ q.1)
          (normPairs (fetch_announcements src mp))).length_eq
        rw [he] at this
        exact List.length_eq_zero.1 this.symm
      rcases maxFst_spec _ hs with ⟨mx, hmx, ⟨p0, hp0, hp0e⟩, hub⟩
      have hm : m = mx := by
        have : some ((maxFst ((normPairs (fetch_announcements src mp)).insertionSort
            (fun p q => p.1 ≤ q.1))).getD (-1)) = some m := h.symm ▸ rfl
        rw [hmx] at this
        exact (Option.some_inj.1 this).symm
      subst hm
      constructor
      · exact ⟨p0, (List.mem_insertionSort _).1 hp0, hp0e⟩
      · intro p hp
        exact hub p ((List.mem_insertionSort _).2 hp)

theorem savedId_isSome (st : StateFile) (src : Nat → PageResult) (mp : Nat)
    (wl : List String) (h2 : normPairs (fetch_announcements src mp) ≠ []) :
    ∃ m, (mainRun st src mp wl).savedId = some m := by
  rw [mainRun_eq_of_ne st src mp wl h2]
  exact ⟨_, rfl⟩

theorem sent_mem_spec (st : StateFile) (src : Nat → PageResult) (mp : Nat)
    (wl : List String) (p : Int × Ann) (hp : p ∈ (mainRun st src mp wl).sent) :
    p.2 ∈ fetch_announcements src mp ∧ normId p.2 = some p.1 ∧
      load_state st < p.1 ∧ in_watchlist wl p.2 = true ∧
      is_results_announcement p.2 = true := by
  by_cases h1 : fetch_announcements src mp = []
  · rw [mainRun_empty_fetch st src mp wl h1] at hp
    cases hp
  · by_cases h2 : normPairs (fetch_announcements src mp) = []
    · rw [mainRun_empty_norm st src mp wl h2] at hp
      cases hp
    · rw [mainRun_eq_of_ne st src mp wl h2] at hp
      rcases List.mem_filter.1 hp with ⟨hp1, hflt⟩
      rcases List.mem_filter.1 hp1 with ⟨hp2, hunseen⟩
      have hmem : p ∈ normPairs (fetch_announcements src mp) :=
        (List.mem_insertionSort _).1 hp2
      rcases normPairs_mem hmem with ⟨hfetch, hnorm⟩
      rw [Bool.and_eq_true] at hflt
      exact ⟨hfetch, hnorm, of_decide_eq_true hunseen, hflt.1, hflt.2⟩

theorem noValidId_normId {a : Ann} (h : noValidId a) : normId a = none := by
  rcases h with ⟨h1, h2, h3⟩
  have key : ∀ v : FieldVal,
      (pyIntFV v = none ∨ pyIntFV v = some 0) →
      (match pyIntFV v with
        | none => (none : Option Int)
        | some n => if n = 0 then none else some n) = none := by
    intro v hv
    rcases hv with hv | hv
    · rw [hv]
    · rw [hv]
      simp
  have general : ∀ l : List FieldVal,
      (∀ v ∈ l, pyIntFV v = none ∨ pyIntFV v = some 0) →
      (match pyIntFV (firstTruthy l) with
        | none => (none : Option Int)
        | some n => if n = 0 then none else some n) = none := by
    intro l
    induction l with
    | nil => intro _; exact key (FieldVal.vInt 0) (Or.inr rfl)
    | cons v vs ih =>
      intro hl
      unfold firstTruthy
      by_cases tv : fieldTruthy v
      · rw [if_pos tv]
        exact key _ (hl v (List.mem_cons_self v vs))
      · rw [if_neg tv]
        exact ih (fun w hw => hl w (List.mem_cons_of_mem v hw))
  unfold normId
  refine general _ ?_
  intro v hv
  rcases List.mem_cons.1 hv with rfl | hv
  · exact h1
  rcases List.mem_cons.1 hv with rfl | hv
  · exact h2
  rcases List.mem_cons.1 hv with rfl | hv
  · exact h3
  cases hv

theorem load_save (n : Int) : load_state (save_state n) = n := rfl

theorem fetchFrom_full (src : Nat → PageResult) :
    ∀ n start : Nat,
      (∀ i, start ≤ i → i < start + n → ∃ t, src i = .page t ∧ 10 ≤ t.length) →
      fetchFrom src start n = tablesConcat src start n := by
  intro n
  induction n with
  | zero => intro start _; rfl
  | succ n ih =>
    intro start hfull
    rcases hfull start (le_refl start) (by omega) with ⟨t, ht, hlen⟩
    have htne : t ≠ [] := by
      intro he
      rw [he] at hlen
      simp at hlen
    have hnotlt : ¬t.length < 10 := by omega
    simp only [fetchFrom, tablesConcat, ht]
    rw [if_neg htne, if_neg hnotlt,
      ih (start + 1) (fun i h1 h2 => hfull i (by omega) (by omega))]

theorem fetchFrom_err (src : Nat → PageResult) :
    ∀ k n start : Nat, k < n → src (start + k) = .fail →
      (∀ i, start ≤ i → i < start + k → ∃ t, src i = .page t ∧ 10 ≤ t.length) →
      fetchFrom src start n = tablesConcat src start k := by
  intro k
  induction k with
  | zero =>
    intro n start hk hfail _
    cases n with
    | zero => omega
    | succ n =>
      have hf : src start = PageResult.fail := by simpa using hfail
      simp only [fetchFrom, hf]
      rfl
  | succ k ih =>
    intro n start hk hfail hfull
    cases n with
    | zero => omega
    | succ n =>
      rcases hfull start (le_refl start) (by omega) with ⟨t, ht, hlen⟩
      have htne : t ≠ [] := by
        intro he
        rw [he] at hlen
        simp at hlen
      have hnotlt : ¬t.length < 10 := by omega
      simp only [fetchFrom, tablesConcat, ht]
      rw [if_neg htne, if_neg hnotlt]
      congr 1
      apply ih n (start + 1) (by omega)
      · rw [show start + 1 + k = start + (k + 1) from by omega]
        exact hfail
      · intro i h1 h2
        exact hfull i (by omega) (by omega)

theorem fetchFrom_short (src : Nat → PageResult) :
    ∀ (k n start : Nat) (t : List Ann), k < n → src (start + k) = .page t →
      t.length < 10 →
      (∀ i, start ≤ i → i < start + k → ∃ t2, src i = .page t2 ∧ 10 ≤ t2.length) →
      fetchFrom src start n = tablesConcat src start (k + 1) := by
  intro k
  induction k with
  | zero =>
    intro n start t hk hpage hshort _
    cases n with
    | zero => omega
    | succ n =>
      have hp : src start = PageResult.page t := by simpa using hpage
      simp only [fetchFrom, tablesConcat, hp]
      by_cases hte : t = []
      · rw [if_pos hte, hte]
        rfl
      · rw [if_neg hte, if_pos hshort]
        exact (List.append_nil t).symm
  | succ k ih =>
    intro n start t hk hpage hshort hfull
    cases n with
    | zero => omega
    | succ n =>
      rcases hfull start (le_refl start) (by omega) with ⟨t2, ht2, hlen2⟩
      have htne : t2 ≠ [] := by
        intro he
        rw [he] at hlen2
        simp at hlen2
      have hnotlt : ¬t2.length < 10 := by omega
      simp only [fetchFrom, tablesConcat, ht2]
      rw [if_neg htne, if_neg hnotlt]
      congr 1
      apply ih n (start + 1) t (by omega)
      · rw [show start + 1 + k = start + (k + 1) from by omega]
        exact hpage
      · exact hshort
      · intro i h1 h2
        exact hfull i (by omega) (by omega)

/- ### Claims -/

/-- C1 counterexample: a run that starts with no persisted watermark does
NOT send zero notifications — with the state file missing and one matching
record fetched, that record is delivered. -/
theorem c1_counterexample :
    load_state .missing = -1 ∧
    (mainRun .missing srcOne 3 []).sent.length = 1 ∧
    (mainRun .missing srcOne 3 []).sent.length ≠ 0 := by
  refine ⟨rfl, by decide, by decide⟩

/-- C1 (amended): on a run with no prior persisted watermark (load yields
−1) there is no bootstrap suppression: the records that pass normalization
and the filters are delivered (`matchCount` of them, possibly nonzero), and
the persisted watermark equals the maximum sequence id over the records
that received one. -/
theorem c1_bootstrap_amended (st : StateFile) (src : Nat → PageResult) (mp : Nat)
    (wl : List String) (habs : load_state st = -1)
    (hne : normPairs (fetch_announcements src mp) ≠ []) :
    ∃ m, (mainRun st src mp wl).savedId = some m ∧
      (∃ p ∈ normPairs (fetch_announcements src mp), p.1 = m) ∧
      (∀ p ∈ normPairs (fetch_announcements src mp), p.1 ≤ m) ∧
      (mainRun st src mp wl).sent.length =
        matchCount wl (-1) (fetch_announcements src mp) := by
  rcases savedId_isSome st src mp wl hne with ⟨m, hm⟩
  rcases savedId_spec st src mp wl m hm with ⟨hmem, hub⟩
  refine ⟨m, hm, hmem, hub, ?_⟩
  rw [sent_length_eq st src mp wl, habs]

/-- Witness for C1 (amended) at a concrete bootstrap run. -/
theorem c1_witness :
    ∃ m, (mainRun .missing srcOne 3 []).savedId = some m ∧
      (∃ p ∈ normPairs (fetch_announcements srcOne 3), p.1 = m) ∧
      (∀ p ∈ normPairs (fetch_announcements srcOne 3), p.1 ≤ m) ∧
      (mainRun .missing srcOne 3 []).sent.length =
        matchCount [] (-1) (fetch_announcements srcOne 3) :=
  c1_bootstrap_amended .missing srcOne 3 [] rfl (by decide)

/-- C2 counterexample: deliveries are not capped — a run with two filtered
matching records sends both, exceeding a per-run maximum of 1, and no
withheld count exists anywhere in the run's outcome. -/
theorem c2_counterexample :
    (mainRun .missing srcTwo 3 []).sent.length = 2 ∧
    ¬(mainRun .missing srcTwo 3 []).sent.length ≤ 1 := by
  refine ⟨by decide, by decide⟩

/-- C2 (amended): every run sends exactly one notification per record that
passes normalization, the unseen check, the watchlist and the topic filter;
no per-run cap is applied and no withheld count is computed. -/
theorem c2_no_cap (st : StateFile) (src : Nat → PageResult) (mp : Nat)
    (wl : List String) :
    (mainRun st src mp wl).sent.length =
      matchCount wl (load_state st) (fetch_announcements src mp) :=
  sent_length_eq st src mp wl

/-- C3 counterexample: the persisted watermark can decrease — with prior
persisted watermark 100 and a fetch whose normalized ids are 1..3, the run
persists 3. -/
theorem c3_counterexample :
    load_state (save_state 100) = 100 ∧
    (mainRun (save_state 100) srcLow 3 []).savedId = some 3 ∧
    ¬((100 : Int) ≤ 3) := by
  refine ⟨rfl, by decide, by decide⟩

/-- C3 (amended): the watermark a run persists is the maximum normalized id
fetched that run, so it is ≥ the prior watermark whenever some fetched
record's normalized id is at least the prior watermark (and only then can
non-decrease be guaranteed). -/
theorem c3_monotone_conditional (st : StateFile) (src : Nat → PageResult) (mp : Nat)
    (wl : List String)
    (h : ∃ p ∈ normPairs (fetch_announcements src mp), load_state st ≤ p.1) :
    ∃ m, (mainRun st src mp wl).savedId = some m ∧ load_state st ≤ m := by
  rcases h with ⟨p, hp, hle⟩
  have hne : normPairs (fetch_announcements src mp) ≠ [] := by
    intro he
    rw [he] at hp
    cases hp
  rcases savedId_isSome st src mp wl hne with ⟨m, hm⟩
  rcases savedId_spec st src mp wl m hm with ⟨_, hub⟩
  exact ⟨m, hm, le_trans hle (hub p hp)⟩

/-- Witness for C3 (amended): prior watermark 3, a record with id 5. -/
theorem c3_witness :
    ∃ m, (mainRun (save_state 3) srcOne 3 []).savedId = some m ∧
      load_state (save_state 3) ≤ m :=
  c3_monotone_conditional (save_state 3) srcOne 3 [] ⟨(5, annFin5), by decide, by decide⟩

/-- C4: no duplicate delivery — every record passed to the notifier carries
its normalized sequence id, and that id is strictly greater than the
watermark loaded at run start. -/
theorem c4_no_duplicate_delivery (st : StateFile) (src : Nat → PageResult) (mp : Nat)
    (wl : List String) (p : Int × Ann) (hp : p ∈ (mainRun st src mp wl).sent) :
    normId p.2 = some p.1 ∧ load_state st < p.1 := by
  rcases sent_mem_spec st src mp wl p hp with ⟨_, hn, hlt, _, _⟩
  exact ⟨hn, hlt⟩

/-- Witness for C4 at a concrete delivered record. -/
theorem c4_witness :
    normId ((5 : Int), annFin5).2 = some ((5 : Int), annFin5).1 ∧
    load_state (save_state 3) < ((5 : Int), annFin5).1 :=
  c4_no_duplicate_delivery (save_state 3) srcOne 3 [] (5, annFin5) (by decide)

/-- C5 counterexample: a fetched record with no parseable identifier is
dropped rather than assigned a fallback id — `annNoId` matches the topic but
gets no sequence id and is never delivered, while its well-formed neighbour
is. -/
theorem c5_counterexample :
    normId annNoId = none ∧
    is_results_announcement annNoId = true ∧
    (mainRun .missing srcMixed 3 []).sent = [(5, annFin5)] ∧
    annNoId ∉ ((mainRun .missing srcMixed 3 []).sent.map Prod.snd) := by
  refine ⟨rfl, by decide, by decide, by decide⟩

/-- C5 (amended): a record none of whose identifier candidates yields a
nonzero integer is dropped from the run: it never receives a sequence id
(never appears in the normalized list) and is never delivered. No fallback
counter exists. -/
theorem c5_dropped_not_fallback (st : StateFile) (src : Nat → PageResult) (mp : Nat)
    (wl : List String) (a : Ann) (h : normId a = none) :
    (∀ p ∈ normPairs (fetch_announcements src mp), p.2 ≠ a) ∧
    (∀ p ∈ (mainRun st src mp wl).sent, p.2 ≠ a) := by
  constructor
  · intro p hp he
    rcases normPairs_mem hp with ⟨_, hn⟩
    rw [he, h] at hn
    cases hn
  · intro p hp he
    rcases sent_mem_spec st src mp wl p hp with ⟨_, hn, _, _, _⟩
    rw [he, h] at hn
    cases hn

/-- Witness for C5 (amended): the delivered record of the mixed run is not
the id-less record. -/
theorem c5_witness :
    ((5 : Int), annFin5).2 ≠ annNoId :=
  (c5_dropped_not_fallback .missing srcMixed 3 [] annNoId rfl).2 (5, annFin5) (by decide)

/-- C6: a run whose fetch yields zero records sends zero notifications and
does not write the state file (the persisted watermark is untouched). -/
theorem c6_empty_fetch (st : StateFile) (src : Nat → PageResult) (mp : Nat)
    (wl : List String) (h : fetch_announcements src mp = []) :
    mainRun st src mp wl = ⟨[], none⟩ :=
  mainRun_empty_fetch st src mp wl h

/-- Witness for C6 at a source with only empty pages. -/
theorem c6_witness :
    mainRun (save_state 7) srcEmptyPages 3 [] = ⟨[], none⟩ :=
  c6_empty_fetch (save_state 7) srcEmptyPages 3 [] (by decide)

/-- C7: `load_state` is total (never throws) and returns the stored integer
exactly when the file parses to a dict whose `last_id` converts to an
integer; in every other condition (missing file, unreadable file, non-dict
JSON, missing key, unconvertible value) it returns −1. -/
theorem c7_load_state_total :
    load_state .missing = -1 ∧
    load_state .unreadable = -1 ∧
    (∀ kvs v n, lookupKey kvs "last_id" = some v → pyIntOfJ v = some n →
      load_state (.parsed (.jobj kvs)) = n) ∧
    (∀ kvs v, lookupKey kvs "last_id" = some v → pyIntOfJ v = none →
      load_state (.parsed (.jobj kvs)) = -1) ∧
    (∀ kvs, lookupKey kvs "last_id" = none →
      load_state (.parsed (.jobj kvs)) = -1) ∧
    (∀ d : JVal, (∀ kvs, d ≠ .jobj kvs) → load_state (.parsed d) = -1) := by
  refine ⟨rfl, rfl, ?_, ?_, ?_, ?_⟩
  · intro kvs v n hl hv
    simp only [load_state, hl, hv, Option.getD_some]
  · intro kvs v hl hv
    simp only [load_state, hl, hv, Option.getD_none]
  · intro kvs hl
    simp only [load_state, hl]
  · intro d hd
    cases d with
    | jobj kvs => exact absurd rfl (hd kvs)
    | jnull => rfl
    | jbool b => rfl
    | jnum n => rfl
    | jstr s => rfl
    | jarr xs => rfl

/-- Witness for C7 on concrete file contents. -/
theorem c7_witness :
    load_state (.parsed (.jobj [("last_id", .jstr "42")])) = 42 ∧
    load_state (.parsed (.jobj [("last_id", .jstr "4x2")])) = -1 ∧
    load_state (.parsed (.jobj [("other", .jnum 7)])) = -1 ∧
    load_state (.parsed (.jarr [])) = -1 :=
  ⟨c7_load_state_total.2.2.1 _ _ 42 rfl rfl,
   c7_load_state_total.2.2.2.1 _ _ rfl rfl,
   c7_load_state_total.2.2.2.2.1 _ rfl,
   c7_load_state_total.2.2.2.2.2 _ (fun kvs h => by cases h)⟩

/-- C8: topic predicate precision — the board-meeting subject does not
match, the unaudited-results subject matches, and the match is
case-insensitive (the same subject matches in lowercase and uppercase). -/
theorem c8_topic_filter :
    is_results_announcement annBoard = false ∧
    is_results_announcement annResults = true ∧
    is_results_announcement annResultsLower = true ∧
    is_results_announcement annResultsUpper = true := by
  refine ⟨by decide, by decide, by decide, by decide⟩

/-- C9: pagination aborts at a failing page but keeps the records of all
earlier pages of the same run; it also stops after a page of fewer than 10
rows (keeping that page) and at the configured page cap. -/
theorem c9_pagination (src : Nat → PageResult) (mp j : Nat) :
    (1 ≤ j → j ≤ mp → src j = .fail →
      (∀ i, 1 ≤ i → i < j → ∃ t, src i = .page t ∧ 10 ≤ t.length) →
      fetch_announcements src mp = tablesConcat src 1 (j - 1)) ∧
    (∀ tj : List Ann, 1 ≤ j → j ≤ mp → src j = .page tj → tj.length < 10 →
      (∀ i, 1 ≤ i → i < j → ∃ t, src i = .page t ∧ 10 ≤ t.length) →
      fetch_announcements src mp = tablesConcat src 1 j) ∧
    ((∀ i, 1 ≤ i → i ≤ mp → ∃ t, src i = .page t ∧ 10 ≤ t.length) →
      fetch_announcements src mp = tablesConcat src 1 mp) := by
  refine ⟨?_, ?_, ?_⟩
  · intro h1 h2 hfail hfull
    unfold fetch_announcements
    apply fetchFrom_err src (j - 1) mp 1 (by omega)
    · rw [show 1 + (j - 1) = j from by omega]
      exact hfail
    · intro i hi1 hi2
      exact hfull i hi1 (by omega)
  · intro tj h1 h2 hpage hshort hfull
    unfold fetch_announcements
    rw [show j = j - 1 + 1 from by omega]
    apply fetchFrom_short src (j - 1) mp 1 tj (by omega)
    · rw [show 1 + (j - 1) = j from by omega]
      exact hpage
    · exact hshort
    · intro i hi1 hi2
      exact hfull i hi1 (by omega)
  · intro hfull
    unfold fetch_announcements
    apply fetchFrom_full src mp 1
    intro i hi1 hi2
    exact hfull i hi1 (by omega)

/-- Witness for C9: a failing page 2 after a full page 1, a short page 2
after a full page 1, and two full pages with the cap at 2. -/
theorem c9_witness :
    fetch_announcements srcErrPage2 3 = tablesConcat srcErrPage2 1 1 ∧
    fetch_announcements srcShortPage2 3 = tablesConcat srcShortPage2 1 2 ∧
    fetch_announcements srcAllFull 2 = tablesConcat srcAllFull 1 2 := by
  refine ⟨?_, ?_, ?_⟩
  · exact (c9_pagination srcErrPage2 3 2).1 (by omega) (by omega) rfl
      (fun i hi1 hi2 => by
        have he : i = 1 := by omega
        subst he
        exact ⟨List.replicate 10 annRow, rfl, by simp⟩)
  · exact (c9_pagination srcShortPage2 3 2).2.1 [annFin5] (by omega) (by omega) rfl
      (by decide)
      (fun i hi1 hi2 => by
        have he : i = 1 := by omega
        subst he
        exact ⟨List.replicate 10 annRow, rfl, by simp⟩)
  · exact (c9_pagination srcAllFull 2 2).2.2
      (fun i hi1 hi2 => ⟨List.replicate 10 annRow, rfl, by simp⟩)

/-- C10: a fetched record whose identifier candidates are all missing,
unparseable, or parse to 0 is excluded from normalization — it is never
delivered and never contributes to the watermark (the persisted value is
always the id of some normalized record) — and if every fetched record
lacks a valid nonzero id, the run sends nothing and writes nothing. -/
theorem c10_invalid_ids (st : StateFile) (src : Nat → PageResult) (mp : Nat)
    (wl : List String) :
    (∀ a : Ann, noValidId a → normId a = none) ∧
    (∀ a : Ann, normId a = none →
      (∀ p ∈ normPairs (fetch_announcements src mp), p.2 ≠ a) ∧
      ∀ p ∈ (mainRun st src mp wl).sent, p.2 ≠ a) ∧
    (∀ m, (mainRun st src mp wl).savedId = some m →
      ∃ p ∈ normPairs (fetch_announcements src mp), p.1 = m) ∧
    ((∀ a ∈ fetch_announcements src mp, noValidId a) →
      mainRun st src mp wl = ⟨[], none⟩) := by
  refine ⟨?_, ?_, ?_, ?_⟩
  · exact fun a h => noValidId_normId h
  · intro a h
    constructor
    · intro p hp he
      rcases normPairs_mem hp with ⟨_, hn⟩
      rw [he, h] at hn
      cases hn
    · intro p hp he
      rcases sent_mem_spec st src mp wl p hp with ⟨_, hn, _, _, _⟩
      rw [he, h] at hn
      cases hn
  · intro m hm
    exact (savedId_spec st src mp wl m hm).1
  · intro hall
    apply mainRun_empty_norm
    unfold normPairs
    rw [List.filterMap_eq_nil_iff]
    intro a ha
    rw [noValidId_normId (hall a ha)]
    rfl

/-- Witness for C10: the id-less record is rejected, and a run fetching
only it terminates with no send and no save. -/
theorem c10_witness :
    normId annNoId = none ∧ mainRun .missing srcAllBad 3 [] = ⟨[], none⟩ :=
  ⟨(c10_invalid_ids .missing srcAllBad 3 []).1 annNoId (by decide),
   (c10_invalid_ids .missing srcAllBad 3 []).2.2.2 (by decide)⟩

end Notify
